import Mathlib

/-!
Verification of the MaTiSSe slide-deck generator core against its
natural-language specification.  The Python sources are shallowly embedded:
Python strings become `String` (or `List Char` where character-level slicing
matters), `OrderedDict` property bags become ordered association lists,
fallible operations (`int(...)`, `dict[...]`) return `Option`, and the few
collaborator modules that are not part of the sources (the base
`ThemeElement` merge, the per-environment tokenizers, the raw-data CSS
renderer) are modelled from the specification and clearly marked as such.
-/

namespace MaTiSSe

/-- Text payload of the embedding where character-level slicing matters:
a Python string modelled as its list of characters. -/
abbrev Str := List Char

/-- A theme data entry: the property value paired with its `isCustom` flag
(the Python source stores `[value, flag]` pairs). -/
abbrev DataVal := String × Bool

/-- The ordered property bag `self.data.data` of a theme element: an ordered
association list from property name to `(value, isCustom)`, mirroring the
`OrderedDict` used by the source (keys are unique by construction there). -/
abbrev DataMap := List (String × DataVal)

/-- Dictionary lookup `d[k]` on an ordered string-keyed association list
(first occurrence; the only one, since a Python dict's keys are unique). -/
def lookup {β : Type} : List (String × β) → String → Option β
  | [], _ => none
  | p :: ds, k => if p.1 = k then some p.2 else lookup ds k

/-- Dictionary assignment `d[k] = v`: replaces the entry in place when the key
is present (keeping its position, as a Python dict does) and appends the entry
otherwise. -/
def setKey {β : Type} : List (String × β) → String → β → List (String × β)
  | [], k, v => [(k, v)]
  | p :: ds, k, v => if p.1 = k then (k, v) :: ds else p :: setKey ds k v

/-- Python `s.strip('%')`: removes leading and trailing `%` characters. -/
def pyStripPct (s : String) : String :=
  String.mk (((s.toList.dropWhile (fun c => c == '%')).reverse.dropWhile
    (fun c => c == '%')).reverse)

/-- Value of a list of decimal digit characters. -/
def digitsToNat (cs : List Char) : Nat :=
  cs.foldl (fun a c => a * 10 + (c.toNat - 48)) 0

/-- Whitespace as stripped by Python `int()`. -/
def isSpaceChar (c : Char) : Bool :=
  c = ' ' ∨ c = '\t' ∨ c = '\n' ∨ c = '\r'

/-- Python `int(s)`: surrounding whitespace is ignored, an optional sign is
followed by at least one decimal digit; any other shape raises `ValueError`,
modelled as `none`. -/
def pyInt (s : String) : Option Int :=
  match ((s.toList.dropWhile isSpaceChar).reverse.dropWhile isSpaceChar).reverse with
  | [] => none
  | c :: rest =>
      let ds := if c = '-' ∨ c = '+' then rest else c :: rest
      if ds ≠ [] ∧ ds.all (fun ch => ch.isDigit) then
        some (if c = '-' then -(digitsToNat ds : Int) else (digitsToNat ds : Int))
      else none

/-- Python `str(i) + '%'` for an integer percentage. -/
def pctStr (i : Int) : String := toString i ++ "%"

/-- A generic slide theme element (header, footer or sidebar) as used by
`Content.adjust_dims`: its activation flag and its property bag. -/
structure ThemeElement where
  active : Bool
  data : DataMap

/-- Modelled from the spec: `ThemeElement.set_from` (the base-class file
`theme_element.py` is not among the sources).  Following §4.3 of the spec,
for every property of `selfD`: the override wins if `isCustom`; otherwise the
global (`otherD`) value is inherited while the override's `isCustom = false`
marker is preserved. -/
def ThemeElement.set_from (selfD otherD : DataMap) : DataMap :=
  selfD.map (fun p =>
    if p.2.2 then p
    else
      match lookup otherD p.1 with
      | some q => (p.1, q.1, false)
      | none => p)

/-- The slide content theme element: its property bag and the special
`padding` field extracted from it (`None` initially, hence `Option`). -/
structure Content where
  data : DataMap
  padding : Option String

/-- Fresh `Content` as initialised by `Content.__init__` before any source is
read: `width`/`height` at `100%`, `padding` at `0`, nothing customised, and
the `padding` field still `None`. -/
def Content.init : Content :=
  { data := [("width", ("100%", false)), ("height", ("100%", false)),
             ("padding", ("0", false))],
    padding := none }

/-- Modelled from the spec: the base-class part of `check_specials`
(`theme_element.py` is not among the sources).  The base class extracts its
own special keys (such as `active`) into typed fields; none of those keys is
touched by the `Content` code under verification, so on this model the base
step acts as the identity on the bag. -/
def ThemeElement.check_specials (d : DataMap) : DataMap := d

/-- `Content.check_specials` (content.py, lines 37-49): after the base-class
step, if the `padding` entry is customised its value is moved into the
`padding` field and the generic entry is reset to `['0', True]`.  The
source's loop over the (unique-keyed) dict touches exactly that entry. -/
def Content.check_specials (c : Content) : Content :=
  let d := ThemeElement.check_specials c.data
  match lookup d "padding" with
  | some (v, true) => { data := setKey d "padding" ("0", true), padding := some v }
  | _ => { c with data := d }

/-- Python truthiness of `other.padding and other.padding != '0'`:
`None` and the empty string are falsy. -/
def paddingTruthyNZ : Option String → Bool
  | none => false
  | some p => ¬(p = "") ∧ ¬(p = "0")

/-- `Content.set_from` (content.py, lines 51-63): merge via the base-class
`set_from`, then, when the own `padding` field equals `'0'` and the other
element carries a truthy padding different from `'0'`, adopt the other's
padding and reset the generic entry to `['0', False]`; finally
`check_specials`. -/
def Content.set_from (c other : Content) : Content :=
  let d := ThemeElement.set_from c.data other.data
  let c' :=
    if c.padding = some "0" ∧ paddingTruthyNZ other.padding then
      { data := setKey d "padding" ("0", false), padding := other.padding }
    else
      { data := d, padding := c.padding }
  Content.check_specials c'

/-- Height of a slide element as read by `adjust_dims`:
`int(elem.data.data['height'][0].strip('%'))`, `none` on a missing key or an
unparsable value. -/
def ThemeElement.height_int (e : ThemeElement) : Option Int :=
  (lookup e.data "height").bind (fun v => pyInt (pyStripPct v.1))

/-- Width of a slide element as read by `adjust_dims`:
`int(elem.data.data['width'][0].strip('%'))`. -/
def ThemeElement.width_int (e : ThemeElement) : Option Int :=
  (lookup e.data "width").bind (fun v => pyInt (pyStripPct v.1))

/-- One step of the `adjust_dims` subtraction loops: an active element
subtracts its parsed dimension from the accumulator. -/
def dimStep (f : ThemeElement → Option Int) (acc : Int) (e : ThemeElement) :
    Option Int :=
  if e.active then (f e).map (fun v => acc - v) else pure acc

/-- `Content.adjust_dims` (content.py, lines 65-93): starting from the
100/100 baseline, subtract every active header's and footer's height from the
content height and every active sidebar's width from the content width, then
store both results (with a `%` suffix) as customised entries, width first.
The element dictionaries are modelled as lists in their insertion order. -/
def Content.adjust_dims (c : Content) (headers footers sidebars : List ThemeElement) :
    Option Content := do
  let sh1 ← headers.foldlM (dimStep ThemeElement.height_int) (100 : Int)
  let s_h ← footers.foldlM (dimStep ThemeElement.height_int) sh1
  let s_w ← sidebars.foldlM (dimStep ThemeElement.width_int) (100 : Int)
  pure { c with
    data := setKey (setKey c.data "width" (pctStr s_w, true)) "height" (pctStr s_h, true) }

/-- A content element in which the user customised `padding` with the value
`'0'`: after `check_specials` the generic entry is `['0', True]` and the
`padding` field holds `'0'`. -/
def Content.exCustomZero : Content :=
  { data := [("width", ("100%", false)), ("height", ("100%", false)),
             ("padding", ("0", true))],
    padding := some "0" }

/-- A less-specific (base) content element whose padding is `5px`. -/
def Content.exBase : Content :=
  { data := [("width", ("100%", false)), ("height", ("100%", false)),
             ("padding", ("0", true))],
    padding := some "5px" }

/-- A content element in which the user customised `width` to `70%`. -/
def Content.exCustomWidth : Content :=
  { data := [("width", ("70%", true)), ("height", ("100%", false)),
             ("padding", ("0", false))],
    padding := none }

/-! ### Slide body tokenizer (slide.py) -/

/-- A token of the slide-body tokenizer: a `['type', source_part]` pair.
The one-element replacement markers (`['box tokens']` and the like) that
`subtokenize` writes into the master list are modelled with an empty text,
which the source never reads. -/
abbrev Token := String × Str

/-- Replacement applied by `Slide.subtokenize` to one master token: an
`'unknown'` token whose re-tokenisation yields more than one token is
replaced in place by the one-element marker `[subtokens_name]`. -/
def subtokReplace (tokenize : Str → List Token) (name : String) (t : Token) :
    Token :=
  if t.1 = "unknown" ∧ (tokenize t.2).length > 1 then (name, []) else t

/-- `Slide.subtokenize` (slide.py, lines 139-165), master-list part: the
in-place replacement applied to every master token. -/
def subtokenizeTokens (tokenize : Str → List Token) (name : String)
    (tokens : List Token) : List Token :=
  tokens.map (subtokReplace tokenize name)

/-- `Slide.subtokenize` (slide.py, lines 139-165), returned value: the list
of `[index_in_master_tokens, subtokens]` pairs for every replaced master
token, in master order; `n` is the index of the current head token. -/
def subtokenizeSubs (tokenize : Str → List Token) :
    Nat → List Token → List (Nat × List Token)
  | _, [] => []
  | n, t :: ts =>
    (if t.1 = "unknown" ∧ (tokenize t.2).length > 1
      then [(n, tokenize t.2)] else []) ++ subtokenizeSubs tokenize (n + 1) ts

/-- Sub-token list recorded for master index `i`: the first matching entry
(the source's loop breaks at the first), or `[]` when none is recorded. -/
def lookupSubs (subs : List (Nat × List Token)) (i : Nat) : List Token :=
  match subs.find? (fun s => s.1 == i) with
  | some s => s.2
  | none => []

/-- `Slide.merge_subtokens` (slide.py, lines 167-185): append to `tokens`
the sub-token list recorded for master index `tkn`, if any (the loop breaks
after the first match found). -/
def merge_subtokens (tokens : List Token) (subtokens : List (Nat × List Token))
    (tkn : Nat) : List Token :=
  tokens ++ lookupSubs subtokens tkn

/-- One step of the final merge loop of `raw_body_tokenize` (slide.py, lines
206-217): `columns` and `unknown` master tokens are appended as they are,
each replacement marker triggers the merge of its recorded sub-tokens, and
any other kind contributes nothing. -/
def mergeStep (b f t n : List (Nat × List Token))
    (tokens : List Token) (p : Nat × Token) : List Token :=
  if p.2.1 = "columns" ∨ p.2.1 = "unknown" then tokens ++ [p.2]
  else if p.2.1 = "box tokens" then merge_subtokens tokens b p.1
  else if p.2.1 = "figure tokens" then merge_subtokens tokens f p.1
  else if p.2.1 = "table tokens" then merge_subtokens tokens t p.1
  else if p.2.1 = "note tokens" then merge_subtokens tokens n p.1
  else tokens

/-- `Slide.raw_body_tokenize` (slide.py, lines 187-218), parametrised by the
five environment tokenizers (the `columns`/`box`/`figure`/`table`/`note`
modules are external to the sources): tokenize on `columns`, run the four
sub-tokenisation passes in order over the master list (each pass both reads
and rewrites it, so a later pass never sees a span claimed by an earlier
one), then merge master tokens and recorded sub-tokens in one enumeration
pass. -/
def raw_body_tokenize (ctok btok ftok ttok ntok : Str → List Token)
    (raw_body : Str) : List Token :=
  let c0 := ctok raw_body
  let b := subtokenizeSubs btok 0 c0
  let c1 := subtokenizeTokens btok "box tokens" c0
  let f := subtokenizeSubs ftok 0 c1
  let c2 := subtokenizeTokens ftok "figure tokens" c1
  let t := subtokenizeSubs ttok 0 c2
  let c3 := subtokenizeTokens ttok "table tokens" c2
  let n := subtokenizeSubs ntok 0 c3
  let c4 := subtokenizeTokens ntok "note tokens" c3
  (c4.enum).foldl (mergeStep b f t n) []

/-- Claim-side description of one master token's contribution to the
tokenizer output: a `columns` token and an unclaimed `unknown` span are kept
in place, an `unknown` span claimed by an environment pass is replaced in
place by the sub-tokens of the first pass (box, figure, table, note, in that
order) whose re-tokenisation splits it, and any other kind is dropped. -/
def spliceOne (btok ftok ttok ntok : Str → List Token) (t : Token) :
    List Token :=
  if t.1 = "unknown" then
    if (btok t.2).length > 1 then btok t.2
    else if (ftok t.2).length > 1 then ftok t.2
    else if (ttok t.2).length > 1 then ttok t.2
    else if (ntok t.2).length > 1 then ntok t.2
    else [t]
  else if t.1 = "columns" then [t]
  else []

/-- Dispatch of one token by `Slide.raw_body_parse` (slide.py, lines
230-242), parametrised by the external markdown converter and the five
environment parsers; a kind outside the six never occurs under the
hypotheses of the theorems below. -/
def parseDispatch (md colP boxP figP tabP noteP : Str → Str) (t : Token) :
    Str :=
  if t.1 = "unknown" then md t.2
  else if t.1 = "columns" then colP t.2
  else if t.1 = "box" then boxP t.2
  else if t.1 = "figure" then figP t.2
  else if t.1 = "table" then tabP t.2
  else if t.1 = "note" then noteP t.2
  else []

/-- One step of the `raw_body_parse` accumulation loop: a recognised token
appends a newline followed by its parsed text; any other kind appends
nothing. -/
def parseStep (md colP boxP figP tabP noteP : Str → Str) (acc : Str)
    (t : Token) : Str :=
  if t.1 = "unknown" then acc ++ '\n' :: md t.2
  else if t.1 = "columns" then acc ++ '\n' :: colP t.2
  else if t.1 = "box" then acc ++ '\n' :: boxP t.2
  else if t.1 = "figure" then acc ++ '\n' :: figP t.2
  else if t.1 = "table" then acc ++ '\n' :: tabP t.2
  else if t.1 = "note" then acc ++ '\n' :: noteP t.2
  else acc

/-- `Slide.raw_body_parse` (slide.py, lines 220-243): tokenize the raw body,
then fold the dispatch loop over the tokens in list order, starting from the
empty string. -/
def raw_body_parse (ctok btok ftok ttok ntok : Str → List Token)
    (md colP boxP figP tabP noteP : Str → Str) (raw_body : Str) : Str :=
  (raw_body_tokenize ctok btok ftok ttok ntok raw_body).foldl
    (parseStep md colP boxP figP tabP noteP) []

/-- Modelled from the spec: splitting a character list on a non-empty
separator, the marker split of §4.1 (the environment tokenizer modules are
not among the sources).  `fuel` bounds the recursion and is instantiated
with the length of the input, which every step decreases. -/
def splitOnFuel (sep : List Char) : Nat → List Char → List Char → List (List Char)
  | 0, rest, acc => [acc.reverse ++ rest]
  | _ + 1, [], acc => [acc.reverse]
  | fuel + 1, c :: cs, acc =>
    if sep.isPrefixOf (c :: cs) then
      acc.reverse :: splitOnFuel sep fuel (List.drop (sep.length - 1) cs) []
    else splitOnFuel sep fuel cs (c :: acc)

/-- Split a character list on every occurrence of `sep` (Python
`str.split(sep)` on the separators used by the markers). -/
def splitOnChars (s sep : List Char) : List (List Char) :=
  splitOnFuel sep s.length s []

/-- Modelled from the spec: the split logic of §4.1 for one environment
(the tokenizer modules are not among the sources).  Text outside a
begin/end marker pair is a plain `'unknown'` token, the text between the
markers is a token of the environment's kind, and a begin marker with no
matching end marker extends to the end of the source; empty plain spans are
not emitted. -/
def tokenizeEnvSpec (bm em : String) (kind : String) (s : Str) : List Token :=
  match splitOnChars s bm.toList with
  | [] => [("unknown", s)]
  | [_] => [("unknown", s)]
  | pre :: rest =>
    (if pre = [] then [] else [("unknown", pre)]) ++
    rest.flatMap (fun chunk =>
      match splitOnChars chunk em.toList with
      | [] => [(kind, chunk)]
      | [inner] => [(kind, inner)]
      | inner :: after =>
        (kind, inner) ::
          (if List.intercalate em.toList after = [] then []
           else [("unknown", List.intercalate em.toList after)]))

/-- Modelled from the spec: the `box` environment tokenizer. -/
def box_tokenize : Str → List Token := tokenizeEnvSpec "$box" "$endbox" "box"

/-- Modelled from the spec: the `figure` environment tokenizer. -/
def figure_tokenize : Str → List Token :=
  tokenizeEnvSpec "$figure" "$endfigure" "figure"

/-- Modelled from the spec: the `table` environment tokenizer. -/
def table_tokenize : Str → List Token :=
  tokenizeEnvSpec "$table" "$endtable" "table"

/-- Modelled from the spec: the `note` environment tokenizer. -/
def note_tokenize : Str → List Token :=
  tokenizeEnvSpec "$note" "$endnote" "note"

/-- Modelled from the spec: the `columns` environment tokenizer. -/
def columns_tokenize : Str → List Token :=
  tokenizeEnvSpec "$columns" "$endcolumns" "columns"

/-- A slide raw body whose single plain span contains both a `box` and a
`figure` environment. -/
def exBody : Str :=
  "$box\nBOXED\n$endbox\nplain\n$figure\nFIG\n$endfigure".toList

/-- Sum of the parsed dimensions (`f` reads height or width) of the active
elements of a list; inactive elements contribute nothing.  This is the
specification-side formula that `Content.adjust_dims` is proved to satisfy. -/
def sumDims (f : ThemeElement → Option Int) (l : List ThemeElement) : Int :=
  ((l.filter (fun e => e.active)).map (fun e => (f e).getD 0)).sum

/-- An active footer declaring a `10%` height. -/
def ThemeElement.exFooter : ThemeElement :=
  { active := true, data := [("height", ("10%", false))] }

/-- An active sidebar declaring a `20%` width. -/
def ThemeElement.exSidebar : ThemeElement :=
  { active := true, data := [("width", ("20%", false))] }

/-! ### CSS generation and slide assembly (slide.py, content.py) -/

/-- Modelled from the spec: `Rawdata.get_css` (the raw-data module is not
among the sources).  Following §4.4, one CSS declaration per property, in
bag order, restricted to the customised entries when `only_custom`. -/
def rawdata_get_css (d : DataMap) (only_custom : Bool) : Str :=
  ((if only_custom then d.filter (fun p => p.2.2) else d).map
    (fun p => ("\n  " ++ p.1 ++ ": " ++ p.2.1 ++ ";").toList)).flatten

/-- `Content.get_css` (content.py, lines 101-124): the `.slide-content` rule
wrapping the data declarations (the `as_list` variant wraps this single
string in a one-element list). -/
def Content.get_css (c : Content) (only_custom : Bool) : Str :=
  "\n.slide-content \x7b\n  float: left;".toList
    ++ rawdata_get_css c.data only_custom ++ "\n\x7d\n".toList

/-- `Slide.get_css` (slide.py, lines 100-119), taking the override theme's
CSS rule list as produced by the external slide-theme renderer (`none` when
`overtheme is None`): the empty string when there is no override theme or
the rule list is empty, otherwise every rule `r` re-emitted as
`'\n#slide-' + str(number) + ' ' + r[1:]`, concatenated. -/
def Slide.get_css (overtheme_css : Option (List Str)) (number : Nat) : Str :=
  match overtheme_css with
  | none => []
  | some css =>
    if css.length > 0 then
      (css.map (fun r => "\n#slide-".toList ++ (toString number).toList
        ++ [' '] ++ r.drop 1)).flatten
    else []

/-- A renderable theme element of the slide assembly (header, footer or
sidebar): its `position` attribute (`'L'`/`'R'`, meaningful for sidebars)
and its externally defined `to_html`, which renders a fragment from the
slide metadata. -/
structure RenderElem where
  position : String
  render : List (String × String) → Str

/-- The slide part of an effective theme as consumed by `Slide.to_html`:
ordered header/sidebar/footer elements plus the content element's external
`to_html` (which wraps the parsed body). -/
structure SlideTheme where
  headers : List RenderElem
  sidebars : List RenderElem
  footers : List RenderElem
  contentRender : Str → Str

/-- The slide position state: 3-D coordinates, rotation and scale
(`Position` of the external positioning module). -/
structure Position where
  position : Int × Int × Int
  rotation : Int × Int × Int
  scale : Int

/-- A presentation slide as consumed by `get_css`/`to_html`: raw body,
global number, title, metadata in insertion order, and the optional
override theme. -/
structure Slide where
  raw_body : Str
  number : Nat
  title : String
  data : List (String × String)
  overtheme : Option SlideTheme

/-- Lookup in the slide metadata (`key in self.data` plus access). -/
def dataLookup (d : List (String × String)) (k : String) : Option String :=
  (d.find? (fun p => p.1 == k)).map (fun p => p.2)

/-- One optional attribute of `put_attributes`: emitted exactly when the key
is present in the slide metadata. -/
def optAttr (d : List (String × String)) (k : String) :
    List (String × String) :=
  match dataLookup d k with
  | some v => [(k, v)]
  | none => []

/-- `Slide.put_attributes` (slide.py, lines 121-137): the id and title
attributes followed by the four optional section/subsection attributes. -/
def Slide.put_attributes (s : Slide) : List (String × String) :=
  [("id", "slide-" ++ toString s.number), ("title", s.title)]
    ++ optAttr s.data "sectiontitle" ++ optAttr s.data "sectionnumber"
    ++ optAttr s.data "subsectiontitle" ++ optAttr s.data "subsectionnumber"

/-- The html fragment of one rendered slide: the attributes of its `div` in
emission order and the child fragments it wraps, in order. -/
structure HtmlDiv where
  attrs : List (String × String)
  children : List Str

/-- `Slide.to_html` (slide.py, lines 245-303), parametrised by the external
`Position.set_position` transition and the tokenizer/parser collaborators of
`raw_body_parse`: after `put_attributes` and the position update, a
non-overview slide gets class `step slide`, the seven positioning data
attributes, and the header / left sidebar / content / right sidebar / footer
fragments in that order; the `$overview` slide gets class `step overview`,
an empty style, zero coordinates, only `data-scale` from the position, and
no children.  (The source also calls `raw_body_parse` a second time for
slide number 2 and discards the result, which has no effect on the output.)
The updated position state is returned alongside the fragment. -/
def Slide.to_html (set_position : SlideTheme → SlideTheme → Position → Position)
    (ctok btok ftok ttok ntok : Str → List Token)
    (md colP boxP figP tabP noteP : Str → Str)
    (s : Slide) (position : Position) (theme : SlideTheme) :
    Position × HtmlDiv :=
  let actual := match s.overtheme with
    | some t => t
    | none => theme
  let pos' := set_position theme actual position
  if s.title ≠ "$overview" then
    (pos',
     { attrs := s.put_attributes ++
         [("class", "step slide"),
          ("data-x", toString pos'.position.1),
          ("data-y", toString pos'.position.2.1),
          ("data-z", toString pos'.position.2.2),
          ("data-scale", toString pos'.scale),
          ("data-rotate-x", toString pos'.rotation.1),
          ("data-rotate-y", toString pos'.rotation.2.1),
          ("data-rotate-z", toString pos'.rotation.2.2)],
       children :=
         actual.headers.map (fun h => h.render s.data)
           ++ (actual.sidebars.filter (fun sb => sb.position == "L")).map
                (fun sb => sb.render s.data)
           ++ [actual.contentRender ('\n' :: raw_body_parse ctok btok ftok
                ttok ntok md colP boxP figP tabP noteP s.raw_body)]
           ++ (actual.sidebars.filter (fun sb => sb.position == "R")).map
                (fun sb => sb.render s.data)
           ++ actual.footers.map (fun f => f.render s.data) })
  else
    (pos',
     { attrs := s.put_attributes ++
         [("class", "step overview"), ("style", ""),
          ("data-x", "0"), ("data-y", "0"), ("data-z", "0"),
          ("data-scale", toString pos'.scale)],
       children := [] })

/-! ### Titlepage (titlepage.py) -/

/-- Python slice index resolution for `s[a:b]`: a negative index counts from
the end of the string and the result is clamped to `[0, len]`. -/
def pyBound (len : Nat) (i : Int) : Nat :=
  if i < 0 then ((len : Int) + i).toNat else min i.toNat len

/-- Python slice `s[a:b]` on a character list. -/
def pySlice (l : Str) (a b : Int) : Str :=
  (l.take (pyBound l.length b)).drop (pyBound l.length a)

/-- `Titlepage.get` (titlepage.py, lines 48-73), parametrised by the results
of the two regex searches (`regexs.py` is not among the sources): `m` is the
begin-marker match, given as its `(start, end)` character positions when one
is found, and `endrel` is the start position of the end-marker match within
`source[match.end():]` when one follows.  Returned are `(found, raw_body,
source with the titlepage span removed)`; with no match `found` stays false
and the raw body stays at its initial empty value.  The `plain` group
handling, which only sets the override theme, is not modelled.  When no end
match follows, `end` keeps its initial value `-1`, so both slices using it
address the last character from the end. -/
def Titlepage.get (source : Str) (m : Option (Nat × Nat))
    (endrel : Option Nat) : Bool × Str × Str :=
  match m with
  | none => (false, [], source)
  | some (ms, me) =>
    let e : Int := match endrel with
      | some r => ((r + me : Nat) : Int)
      | none => (-1 : Int)
    (true, pySlice source (me : Int) e,
     pySlice source 0 (ms : Int) ++ pySlice source e (source.length : Int))

/-! ### Metadata (metadata.py) -/

/-- A Python value stored in the metadata dictionary: the defaults use
strings, lists, booleans (via `eval`) and the integer `max_time`; `eval`
results are modelled within the same universe, with list payloads restricted
to strings (their content is never inspected by the code under
verification). -/
inductive PyVal where
  | pstr (s : String)
  | plist (l : List String)
  | pbool (b : Bool)
  | pint (n : Int)
deriving DecidableEq

/-- Python `str.strip()` with no argument: surrounding whitespace removed. -/
def pyStrip (s : String) : String :=
  String.mk (((s.toList.dropWhile isSpaceChar).reverse.dropWhile
    isSpaceChar).reverse)

/-- One raw-data item of `Metadata.get_values` (metadata.py, lines 59-73):
keys not present in the dictionary are silently skipped; for a present key
the branch is chosen by `isinstance` on the value currently stored — a
string takes the stripped raw value verbatim, a list or boolean takes
`eval(raw value)` (the external `eval` is the `pyEval` parameter), anything
else takes the stripped raw value verbatim. -/
def Metadata.get_value_step (pyEval : String → PyVal)
    (data : List (String × PyVal)) (item : String × String) :
    List (String × PyVal) :=
  match lookup data (pyStrip item.1) with
  | none => data
  | some (PyVal.pstr _) =>
      setKey data (pyStrip item.1) (PyVal.pstr (pyStrip item.2))
  | some (PyVal.plist _) =>
      setKey data (pyStrip item.1) (pyEval (pyStrip item.2))
  | some (PyVal.pbool _) =>
      setKey data (pyStrip item.1) (pyEval (pyStrip item.2))
  | some _ =>
      setKey data (pyStrip item.1) (PyVal.pstr (pyStrip item.2))

/-- `Metadata.get_values` (metadata.py, lines 59-73): fold the item update
over the raw data in order. -/
def Metadata.get_values (pyEval : String → PyVal)
    (data : List (String × PyVal)) (raw : List (String × String)) :
    List (String × PyVal) :=
  raw.foldl (Metadata.get_value_step pyEval) data

/-- `Metadata.set_value` (metadata.py, lines 74-80): update the entry when
the key is already present, silently do nothing otherwise. -/
def Metadata.set_value (data : List (String × PyVal)) (k : String)
    (v : PyVal) : List (String × PyVal) :=
  if (lookup data k).isSome then setKey data k v else data

/-- Modelled from the spec: a fragment of Python `eval` (an external
builtin) on the literals exercised by the metadata examples — the string
literal `"x"` evaluates to the string `x`, `True` to the boolean, and other
inputs are mapped to an arbitrary non-string value (a Python `eval` of a
bare word raises or yields a non-string object, never the word itself). -/
def exEval : String → PyVal :=
  fun v =>
    if v = "\"x\"" then PyVal.pstr "x"
    else if v = "True" then PyVal.pbool true
    else PyVal.plist []

/-- A fragment of the metadata defaults dictionary: a string key, a list
key and the integer `max_time`. -/
def exMetaDefaults : List (String × PyVal) :=
  [("title", PyVal.pstr ""), ("authors", PyVal.plist []),
   ("max_time", PyVal.pint 25)]

/-- A concrete titlepage source. -/
def exTpSource : Str := "abcdef".toList

/-- A position transition that keeps the running state (concrete instance
for evaluation). -/
def exSetPos : SlideTheme → SlideTheme → Position → Position :=
  fun _ _ p => p

/-- An empty slide theme with the identity content renderer. -/
def exTheme : SlideTheme :=
  { headers := [], sidebars := [], footers := [], contentRender := id }

/-- A concrete position state. -/
def exPosition : Position :=
  { position := (3, 4, 5), rotation := (0, 90, 0), scale := 2 }

/-- A concrete non-overview slide with an empty body and no override
theme. -/
def exSlide : Slide :=
  { raw_body := [], number := 1, title := "intro", data := [],
    overtheme := none }

/-! ## Theorems -/

theorem lookup_setKey_self {β : Type} (d : List (String × β)) (k : String) (v : β) :
    lookup (setKey d k v) k = some v := by
  induction d with
  | nil => simp [setKey, lookup]
  | cons p ds ih =>
    by_cases hp : p.1 = k
    · simp [setKey, lookup, hp]
    · simp [setKey, lookup, hp, ih]

theorem lookup_setKey_ne {β : Type} (d : List (String × β)) (k k' : String) (v : β)
    (h : k ≠ k') : lookup (setKey d k v) k' = lookup d k' := by
  induction d with
  | nil => simp [setKey, lookup, h]
  | cons p ds ih =>
    by_cases hp : p.1 = k
    · simp [setKey, lookup, hp, h]
    · by_cases hp' : p.1 = k'
      · simp [setKey, lookup, hp, hp', Ne.symm h]
      · simp [setKey, lookup, hp, hp', ih]

theorem setKey_of_lookup_eq {β : Type} (d : List (String × β)) (k : String) (v : β)
    (h : lookup d k = some v) : setKey d k v = d := by
  induction d with
  | nil => simp [lookup] at h
  | cons p ds ih =>
    obtain ⟨pk, pv⟩ := p
    by_cases hp : pk = k
    · subst hp
      simp only [lookup, if_pos rfl] at h
      obtain rfl : pv = v := by injection h
      simp [setKey]
    · simp only [lookup, if_neg hp] at h
      simp [setKey, hp, ih h]

theorem lookup_set_from_custom (d o : DataMap) (k : String) (v : String)
    (h : lookup d k = some (v, true)) :
    lookup (ThemeElement.set_from d o) k = some (v, true) := by
  induction d with
  | nil => simp [lookup] at h
  | cons p ds ih =>
    have hkey : (if p.2.2 = true then p
        else match lookup o p.1 with
             | some q => (p.1, q.1, false)
             | none => p).1 = p.1 := by
      split
      · rfl
      · cases lookup o p.1 <;> rfl
    by_cases hp : p.1 = k
    · have hv : p.2 = (v, true) := by
        simpa [lookup, hp] using h
      have hcust : p.2.2 = true := by rw [hv]
      simp [ThemeElement.set_from, lookup, hcust, hkey, hp, hv]
    · have h' : lookup ds k = some (v, true) := by
        simpa [lookup, hp] using h
      simp only [ThemeElement.set_from, List.map_cons, lookup, hkey, hp,
        if_false, if_neg hp]
      exact ih h'

/-- C1 (amended).  Customization monotonicity as the code implements it: a
property marked custom in a `Content` element survives `Content.set_from`
from a less-specific element with its flag and value intact, for every key
other than the special key `padding`; for `padding` (whose generic entry is
normalised to the value `'0'`) the custom flag survives unless the element's
extracted padding field equals `'0'` while the other element carries a truthy
padding different from `'0'`, in which case the source clears the flag. -/
theorem content_set_from_preserves_custom (c o : Content) (k : String) (v : String)
    (hk : lookup c.data k = some (v, true))
    (hcond : k ≠ "padding" ∨
      (v = "0" ∧ ¬(c.padding = some "0" ∧ paddingTruthyNZ o.padding))) :
    lookup (Content.set_from c o).data k = some (v, true) := by
  have hd : lookup (ThemeElement.set_from c.data o.data) k = some (v, true) :=
    lookup_set_from_custom c.data o.data k v hk
  by_cases htr : c.padding = some "0" ∧ paddingTruthyNZ o.padding
  · rcases hcond with hne | ⟨hv0, hnt⟩
    · simp only [Content.set_from, if_pos htr, Content.check_specials,
        ThemeElement.check_specials]
      have hpad : lookup (setKey (ThemeElement.set_from c.data o.data)
          "padding" ("0", false)) "padding" = some ("0", false) :=
        lookup_setKey_self _ _ _
      rw [hpad]
      exact lookup_setKey_ne _ "padding" k _ (fun h => hne h.symm) |>.trans hd
    · exact absurd htr hnt
  · simp only [Content.set_from, if_neg htr, Content.check_specials,
      ThemeElement.check_specials]
    by_cases hkp : k = "padding"
    · rcases hcond with hne | ⟨hv0, _⟩
      · exact absurd hkp hne
      · subst hkp
        rw [hd, hv0]
        exact lookup_setKey_self _ _ _
    · cases hpd : lookup (ThemeElement.set_from c.data o.data) "padding" with
      | none => simpa using hd
      | some q =>
        rcases q with ⟨pv, pb⟩
        cases pb with
        | true =>
          exact (lookup_setKey_ne _ "padding" k _ (fun h => hkp h.symm)).trans hd
        | false => simpa using hd

/-- C1 (counterexample).  A `Content` whose `padding` the user customised
with the value `'0'` (so the generic entry is `['0', True]`), merged via
`Content.set_from` from a less-specific element whose padding is `5px`:
the merge clears the custom flag (the entry becomes `['0', False]`) and
overwrites the extracted padding field with the base value, contradicting the
claim that a custom property is never reverted by a less-specific merge. -/
theorem content_set_from_padding_custom_cleared :
    lookup Content.exCustomZero.data "padding" = some ("0", true) ∧
    lookup (Content.set_from Content.exCustomZero Content.exBase).data "padding"
      = some ("0", false) ∧
    (Content.set_from Content.exCustomZero Content.exBase).padding = some "5px" := by
  decide

/-- Witness for C1: the amended theorem evaluated at a concrete element whose
`width` was customised to `70%`. -/
theorem content_set_from_preserves_custom_witness :
    lookup Content.exCustomWidth.data "width" = some ("70%", true) ∧
    lookup (Content.set_from Content.exCustomWidth Content.exBase).data "width"
      = some ("70%", true) :=
  ⟨by decide,
   content_set_from_preserves_custom Content.exCustomWidth Content.exBase
     "width" "70%" (by decide) (Or.inl (by decide))⟩

/-- C2.  Idempotence of dimension adjustment: `Content.adjust_dims` restarts
from the 100/100 baseline on every call and never decrements the stored value
in place, so running it a second time with the same headers, footers and
sidebars returns exactly the element produced by the first run (stated for
the whole fallible computation: a failing run fails both times). -/
theorem content_adjust_dims_idempotent (c : Content) (hs fs ss : List ThemeElement) :
    (Content.adjust_dims c hs fs ss).bind (fun c' => Content.adjust_dims c' hs fs ss)
      = Content.adjust_dims c hs fs ss := by
  cases h1 : hs.foldlM (dimStep ThemeElement.height_int) (100 : Int) with
  | none => simp [Content.adjust_dims, h1]
  | some sh1 =>
    cases h2 : fs.foldlM (dimStep ThemeElement.height_int) sh1 with
    | none => simp [Content.adjust_dims, h1, h2]
    | some sh =>
      cases h3 : ss.foldlM (dimStep ThemeElement.width_int) (100 : Int) with
      | none => simp [Content.adjust_dims, h1, h2, h3]
      | some sw =>
        have hW : lookup (setKey (setKey c.data "width" (pctStr sw, true))
            "height" (pctStr sh, true)) "width" = some (pctStr sw, true) := by
          rw [lookup_setKey_ne _ "height" "width" _ (by decide)]
          exact lookup_setKey_self _ _ _
        have e1 := setKey_of_lookup_eq _ _ _ hW
        have hH : lookup (setKey (setKey c.data "width" (pctStr sw, true))
            "height" (pctStr sh, true)) "height" = some (pctStr sh, true) :=
          lookup_setKey_self _ _ _
        have e2 := setKey_of_lookup_eq _ _ _ hH
        simp [Content.adjust_dims, h1, h2, h3, e1, e2]

theorem foldlM_dimStep (f : ThemeElement → Option Int) (l : List ThemeElement)
    (acc : Int) (h : ∀ e ∈ l, e.active = true → (f e).isSome) :
    l.foldlM (dimStep f) acc = some (acc - sumDims f l) := by
  induction l generalizing acc with
  | nil => simp [List.foldlM, sumDims]
  | cons e es ih =>
    have hrest : ∀ x ∈ es, x.active = true → (f x).isSome :=
      fun x hx => h x (by simp [hx])
    by_cases ha : e.active
    · obtain ⟨v, hv⟩ := Option.isSome_iff_exists.mp (h e (by simp) ha)
      rw [List.foldlM_cons]
      simp only [dimStep, if_pos ha, hv, Option.map_some']
      rw [show ((some (acc - v) >>= fun b => es.foldlM (dimStep f) b)
          = es.foldlM (dimStep f) (acc - v)) from rfl]
      rw [ih _ hrest]
      simp [sumDims, ha, hv]
      omega
    · rw [List.foldlM_cons]
      simp only [dimStep, if_neg ha]
      rw [show ((pure acc >>= fun b => es.foldlM (dimStep f) b)
          = es.foldlM (dimStep f) acc) from rfl]
      rw [ih _ hrest]
      simp [sumDims, ha]

/-- C3.  Dimension-adjustment formula: when every active element's declared
dimension parses, `Content.adjust_dims` succeeds and stores as `height`
100 minus the sum of the parsed heights of the active headers and footers
(suffixed with `%`) and as `width` 100 minus the sum of the parsed widths of
the active sidebars (suffixed with `%`), both marked custom; inactive
elements contribute nothing. -/
theorem content_adjust_dims_formula (c : Content) (hs fs ss : List ThemeElement)
    (hh : ∀ e ∈ hs, e.active = true → (ThemeElement.height_int e).isSome)
    (hf : ∀ e ∈ fs, e.active = true → (ThemeElement.height_int e).isSome)
    (hw : ∀ e ∈ ss, e.active = true → (ThemeElement.width_int e).isSome) :
    ∃ c', Content.adjust_dims c hs fs ss = some c' ∧
      lookup c'.data "height" =
        some (pctStr (100 - sumDims ThemeElement.height_int (hs ++ fs)), true) ∧
      lookup c'.data "width" =
        some (pctStr (100 - sumDims ThemeElement.width_int ss), true) := by
  have h1 := foldlM_dimStep ThemeElement.height_int hs 100 hh
  have h2 := foldlM_dimStep ThemeElement.height_int fs
    (100 - sumDims ThemeElement.height_int hs) hf
  have h3 := foldlM_dimStep ThemeElement.width_int ss 100 hw
  have hsum : (100 - sumDims ThemeElement.height_int hs
        - sumDims ThemeElement.height_int fs : Int)
      = 100 - sumDims ThemeElement.height_int (hs ++ fs) := by
    simp only [sumDims, List.filter_append, List.map_append, List.sum_append]
    omega
  refine ⟨{ c with
      data := setKey
        (setKey c.data "width"
          (pctStr (100 - sumDims ThemeElement.width_int ss), true))
        "height"
        (pctStr (100 - sumDims ThemeElement.height_int hs
          - sumDims ThemeElement.height_int fs), true) },
    ?_, ?_, ?_⟩
  · simp [Content.adjust_dims, h1, h2, h3]
  · rw [← hsum]
    exact lookup_setKey_self _ _ _
  · rw [lookup_setKey_ne _ "height" "width" _ (by decide)]
    exact lookup_setKey_self _ _ _

/-- Witness for C3: a fresh content element adjusted against one active
footer of height `10%` and one active sidebar of width `20%` yields
`90%`/`80%`. -/
theorem content_adjust_dims_formula_witness :
    (∃ c', Content.adjust_dims Content.init [] [ThemeElement.exFooter]
        [ThemeElement.exSidebar] = some c' ∧
      lookup c'.data "height" =
        some (pctStr (100 - sumDims ThemeElement.height_int
          ([] ++ [ThemeElement.exFooter])), true) ∧
      lookup c'.data "width" =
        some (pctStr (100 - sumDims ThemeElement.width_int
          [ThemeElement.exSidebar]), true)) ∧
    pctStr (100 - sumDims ThemeElement.height_int
      ([] ++ [ThemeElement.exFooter])) = "90%" ∧
    pctStr (100 - sumDims ThemeElement.width_int [ThemeElement.exSidebar]) = "80%" :=
  ⟨content_adjust_dims_formula Content.init [] [ThemeElement.exFooter]
    [ThemeElement.exSidebar] (by decide) (by decide) (by decide),
   by decide, by decide⟩

theorem flatMap_congr_mem {α β : Type} (l : List α) (f g : α → List β)
    (h : ∀ x ∈ l, f x = g x) : l.flatMap f = l.flatMap g := by
  induction l with
  | nil => rfl
  | cons a as ih =>
    rw [List.flatMap_cons, List.flatMap_cons, h a (by simp),
      ih (fun x hx => h x (by simp [hx]))]

theorem foldl_append_of_step {α β : Type} (step : List β → α → List β)
    (g : α → List β) (hstep : ∀ acc x, step acc x = acc ++ g x)
    (l : List α) (init : List β) :
    l.foldl step init = init ++ l.flatMap g := by
  induction l generalizing init with
  | nil => simp
  | cons a as ih =>
    rw [List.foldl_cons, hstep, ih, List.flatMap_cons, List.append_assoc]

theorem mergeStep_append (b f t n : List (Nat × List Token))
    (acc : List Token) (p : Nat × Token) :
    mergeStep b f t n acc p = acc ++ mergeStep b f t n [] p := by
  unfold mergeStep merge_subtokens
  split
  · rfl
  · split
    · rfl
    · split
      · rfl
      · split
        · rfl
        · split
          · rfl
          · simp

theorem lookupSubs_subtokenizeSubs_lt (tok : Str → List Token)
    (c : List Token) (n i : Nat) (h : i < n) :
    lookupSubs (subtokenizeSubs tok n c) i = [] := by
  induction c generalizing n with
  | nil => rfl
  | cons t ts ih =>
    have hne : (n == i) = false := by simp; omega
    by_cases hcond : t.1 = "unknown" ∧ (tok t.2).length > 1
    · simp only [subtokenizeSubs, if_pos hcond, List.singleton_append,
        lookupSubs, List.find?_cons, hne]
      exact ih (n + 1) (by omega)
    · simp only [subtokenizeSubs, if_neg hcond, List.nil_append]
      exact ih (n + 1) (by omega)

theorem lookupSubs_subtokenizeSubs (tok : Str → List Token)
    (ms : List Token) (n i : Nat) :
    lookupSubs (subtokenizeSubs tok n ms) (n + i)
      = match ms[i]? with
        | some t =>
            if t.1 = "unknown" ∧ (tok t.2).length > 1 then tok t.2 else []
        | none => [] := by
  induction ms generalizing n i with
  | nil => simp [subtokenizeSubs, lookupSubs]
  | cons t ts ih =>
    cases i with
    | zero =>
      by_cases hcond : t.1 = "unknown" ∧ (tok t.2).length > 1
      · simp [subtokenizeSubs, if_pos hcond, lookupSubs, List.find?_cons,
          hcond]
      · simp only [subtokenizeSubs, if_neg hcond, List.nil_append,
          Nat.add_zero]
        rw [lookupSubs_subtokenizeSubs_lt tok ts (n + 1) n (by omega)]
        simp [hcond]
    | succ j =>
      have hne : (n == n + (j + 1)) = false := by simp
      by_cases hcond : t.1 = "unknown" ∧ (tok t.2).length > 1
      · simp only [subtokenizeSubs, if_pos hcond, List.singleton_append,
          lookupSubs, List.find?_cons, hne]
        have := ih (n + 1) j
        rw [show n + 1 + j = n + (j + 1) from by omega] at this
        simpa [lookupSubs] using this
      · simp only [subtokenizeSubs, if_neg hcond, List.nil_append]
        have := ih (n + 1) j
        rw [show n + 1 + j = n + (j + 1) from by omega] at this
        simpa [lookupSubs] using this

/-- C5.  Sub-token merge is exactly-once and order-preserving:
`raw_body_tokenize` equals the in-place splice of the master token sequence
produced by the top-level `columns` split — each master token (all of kind
`columns` or `unknown`) is either kept at its position or replaced there,
exactly once, by the sub-token list discovered for it by the first
environment pass that splits it; no token is duplicated or dropped and the
order follows the source. -/
theorem raw_body_tokenize_splices (ctok btok ftok ttok ntok : Str → List Token)
    (s : Str) (hc : ∀ t ∈ ctok s, t.1 = "columns" ∨ t.1 = "unknown") :
    raw_body_tokenize ctok btok ftok ttok ntok s
      = (ctok s).flatMap (spliceOne btok ftok ttok ntok) := by
  have hrw : raw_body_tokenize ctok btok ftok ttok ntok s
      = ((subtokenizeTokens ntok "note tokens" (subtokenizeTokens ttok
          "table tokens" (subtokenizeTokens ftok "figure tokens"
          (subtokenizeTokens btok "box tokens" (ctok s))))).enum).foldl
          (mergeStep (subtokenizeSubs btok 0 (ctok s))
            (subtokenizeSubs ftok 0
              (subtokenizeTokens btok "box tokens" (ctok s)))
            (subtokenizeSubs ttok 0 (subtokenizeTokens ftok "figure tokens"
              (subtokenizeTokens btok "box tokens" (ctok s))))
            (subtokenizeSubs ntok 0 (subtokenizeTokens ttok "table tokens"
              (subtokenizeTokens ftok "figure tokens"
              (subtokenizeTokens btok "box tokens" (ctok s))))))
          [] := rfl
  rw [hrw, foldl_append_of_step _ _ (mergeStep_append _ _ _ _), List.nil_append]
  simp only [subtokenizeTokens, List.map_map, List.enum_map, List.flatMap_map]
  conv_rhs => rw [← List.enum_map_snd (ctok s), List.flatMap_map]
  apply flatMap_congr_mem
  intro p hp
  obtain ⟨i, t⟩ := p
  have hget : (ctok s)[i]? = some t := List.mem_enum_iff_getElem?.mp hp
  have hmem : t ∈ ctok s := List.getElem?_mem hget
  have hL2b := lookupSubs_subtokenizeSubs btok (ctok s) 0 i
  have hL2f := lookupSubs_subtokenizeSubs ftok
    (subtokenizeTokens btok "box tokens" (ctok s)) 0 i
  have hL2t := lookupSubs_subtokenizeSubs ttok
    (subtokenizeTokens ftok "figure tokens"
      (subtokenizeTokens btok "box tokens" (ctok s))) 0 i
  have hL2n := lookupSubs_subtokenizeSubs ntok
    (subtokenizeTokens ttok "table tokens"
      (subtokenizeTokens ftok "figure tokens"
      (subtokenizeTokens btok "box tokens" (ctok s)))) 0 i
  rw [Nat.zero_add] at hL2b hL2f hL2t hL2n
  simp only [subtokenizeTokens, List.map_map] at hL2b hL2f hL2t hL2n
  rcases hc t hmem with hcol | hunk
  · have h1 : subtokReplace btok "box tokens" t = t := by
      simp [subtokReplace, hcol]
    have h2 : subtokReplace ftok "figure tokens" t = t := by
      simp [subtokReplace, hcol]
    have h3 : subtokReplace ttok "table tokens" t = t := by
      simp [subtokReplace, hcol]
    have h4 : subtokReplace ntok "note tokens" t = t := by
      simp [subtokReplace, hcol]
    simp [mergeStep, spliceOne, Prod.map, Function.comp, h1, h2, h3, h4, hcol]
  · by_cases hb : (btok t.2).length > 1
    · have h1 : subtokReplace btok "box tokens" t = ("box tokens", []) := by
        simp [subtokReplace, hunk, hb]
      have h2 : subtokReplace ftok "figure tokens" ("box tokens", ([] : Str))
          = ("box tokens", []) := by simp [subtokReplace]
      have h3 : subtokReplace ttok "table tokens" ("box tokens", ([] : Str))
          = ("box tokens", []) := by simp [subtokReplace]
      have h4 : subtokReplace ntok "note tokens" ("box tokens", ([] : Str))
          = ("box tokens", []) := by simp [subtokReplace]
      rw [hget] at hL2b
      simp [mergeStep, spliceOne, Prod.map, Function.comp, h1, h2, h3, h4,
        merge_subtokens, hL2b, hunk, hb]
    · have h1 : subtokReplace btok "box tokens" t = t := by
        simp [subtokReplace, hb]
      have hget1 : (List.map (subtokReplace btok "box tokens") (ctok s))[i]?
          = some t := by
        simp [List.getElem?_map, hget, h1]
      by_cases hf : (ftok t.2).length > 1
      · have h2 : subtokReplace ftok "figure tokens" t
            = ("figure tokens", []) := by simp [subtokReplace, hunk, hf]
        have h3 : subtokReplace ttok "table tokens"
            ("figure tokens", ([] : Str)) = ("figure tokens", []) := by
          simp [subtokReplace]
        have h4 : subtokReplace ntok "note tokens"
            ("figure tokens", ([] : Str)) = ("figure tokens", []) := by
          simp [subtokReplace]
        rw [hget1] at hL2f
        simp [mergeStep, spliceOne, Prod.map, Function.comp, h1, h2, h3, h4,
          merge_subtokens, hL2f, hunk, hb, hf]
      · have h2 : subtokReplace ftok "figure tokens" t = t := by
          simp [subtokReplace, hf]
        have hget2 : (List.map (subtokReplace ftok "figure tokens"
            ∘ subtokReplace btok "box tokens") (ctok s))[i]? = some t := by
          simp [List.getElem?_map, hget, h1, h2, Function.comp]
        by_cases ht : (ttok t.2).length > 1
        · have h3 : subtokReplace ttok "table tokens" t
              = ("table tokens", []) := by simp [subtokReplace, hunk, ht]
          have h4 : subtokReplace ntok "note tokens"
              ("table tokens", ([] : Str)) = ("table tokens", []) := by
            simp [subtokReplace]
          rw [hget2] at hL2t
          simp [mergeStep, spliceOne, Prod.map, Function.comp, h1, h2, h3, h4,
            merge_subtokens, hL2t, hunk, hb, hf, ht]
        · have h3 : subtokReplace ttok "table tokens" t = t := by
            simp [subtokReplace, ht]
          have hget3 : (List.map (subtokReplace ttok "table tokens"
              ∘ subtokReplace ftok "figure tokens"
              ∘ subtokReplace btok "box tokens") (ctok s))[i]? = some t := by
            simp [List.getElem?_map, hget, h1, h2, h3, Function.comp]
          by_cases hn : (ntok t.2).length > 1
          · have h4 : subtokReplace ntok "note tokens" t
                = ("note tokens", []) := by simp [subtokReplace, hunk, hn]
            rw [hget3] at hL2n
            simp [mergeStep, spliceOne, Prod.map, Function.comp, h1, h2, h3,
              h4, merge_subtokens, hL2n, hunk, hb, hf, ht, hn]
          · have h4 : subtokReplace ntok "note tokens" t = t := by
              simp [subtokReplace, hn]
            simp [mergeStep, spliceOne, Prod.map, Function.comp, h1, h2, h3,
              h4, hunk, hb, hf, ht, hn]

/-- Witness for C5: the splice equation evaluated with the spec-modelled
environment tokenizers on a body containing a box and a figure environment. -/
theorem raw_body_tokenize_splices_witness :
    (∀ t ∈ columns_tokenize exBody, t.1 = "columns" ∨ t.1 = "unknown") ∧
    raw_body_tokenize columns_tokenize box_tokenize figure_tokenize
        table_tokenize note_tokenize exBody
      = (columns_tokenize exBody).flatMap
          (spliceOne box_tokenize figure_tokenize table_tokenize note_tokenize) :=
  ⟨by decide, raw_body_tokenize_splices columns_tokenize box_tokenize
    figure_tokenize table_tokenize note_tokenize exBody (by decide)⟩

/-- C4 (amended).  A plain (`'unknown'`) master token is re-scanned by an
environment pass only while it remains plain: when the box pass claims a
span (its re-tokenisation splits it into more than one token), the span is
replaced in place by the marker `['box tokens']` with its sub-tokens
recorded at its index, and the following pass (figure, and likewise table
and note) records nothing for that index — the span is not re-scanned for
the later environments.  When the box pass does not claim the span, it stays
plain and the next pass does re-scan it. -/
theorem subtokenize_rescans_only_unclaimed (bt ft : Str → List Token)
    (tokens : List Token) (i : Nat) (x : Str)
    (h : tokens[i]? = some ("unknown", x)) :
    ((bt x).length > 1 →
      (subtokenizeTokens bt "box tokens" tokens)[i]? = some ("box tokens", []) ∧
      lookupSubs (subtokenizeSubs bt 0 tokens) i = bt x ∧
      lookupSubs (subtokenizeSubs ft 0 (subtokenizeTokens bt "box tokens" tokens)) i
        = []) ∧
    (¬(bt x).length > 1 →
      (subtokenizeTokens bt "box tokens" tokens)[i]? = some ("unknown", x) ∧
      ((ft x).length > 1 →
        lookupSubs (subtokenizeSubs ft 0 (subtokenizeTokens bt "box tokens" tokens)) i
          = ft x)) := by
  have hb0 := lookupSubs_subtokenizeSubs bt tokens 0 i
  rw [Nat.zero_add, h] at hb0
  have hf0 := lookupSubs_subtokenizeSubs ft (subtokenizeTokens bt "box tokens" tokens) 0 i
  rw [Nat.zero_add] at hf0
  constructor
  · intro hbt
    have hrep : (subtokenizeTokens bt "box tokens" tokens)[i]?
        = some ("box tokens", []) := by
      simp [subtokenizeTokens, List.getElem?_map, h, subtokReplace, hbt]
    refine ⟨hrep, ?_, ?_⟩
    · simpa [hbt] using hb0
    · rw [hrep] at hf0
      simpa using hf0
  · intro hbt
    have hrep : (subtokenizeTokens bt "box tokens" tokens)[i]?
        = some ("unknown", x) := by
      simp [subtokenizeTokens, List.getElem?_map, h, subtokReplace, hbt]
    refine ⟨hrep, fun hft => ?_⟩
    rw [hrep] at hf0
    simpa [hft] using hf0

/-- C4 (counterexample).  `exBody` is a single plain span containing a box
environment followed by a figure environment: the box pass claims the whole
span, so `raw_body_tokenize` emits a `box` token and a plain remainder that
still contains the figure environment — no `figure` token is produced, even
though the figure tokenizer does discover one in the span.  This contradicts
the claim that every plain span is re-scanned for each of the four
environments with all discovered sub-tokens spliced in. -/
theorem raw_body_tokenize_no_figure_rescan :
    ("box", "\nBOXED\n".toList) ∈ box_tokenize exBody ∧
    ("figure", "\nFIG\n".toList) ∈ figure_tokenize exBody ∧
    (raw_body_tokenize columns_tokenize box_tokenize figure_tokenize
        table_tokenize note_tokenize exBody).map Prod.fst
      = ["box", "unknown"] := by
  refine ⟨?_, ?_, ?_⟩ <;> decide

/-- Witness for C4 (amended): evaluated on the master list of `exBody`,
whose single plain span the box pass claims. -/
theorem subtokenize_rescans_only_unclaimed_witness :
    ([(("unknown" : String), exBody)][0]? = some ("unknown", exBody)) ∧
    (((box_tokenize exBody).length > 1 →
      (subtokenizeTokens box_tokenize "box tokens" [("unknown", exBody)])[0]?
        = some ("box tokens", []) ∧
      lookupSubs (subtokenizeSubs box_tokenize 0 [("unknown", exBody)]) 0
        = box_tokenize exBody ∧
      lookupSubs (subtokenizeSubs figure_tokenize 0
        (subtokenizeTokens box_tokenize "box tokens" [("unknown", exBody)])) 0
        = []) ∧
    (¬(box_tokenize exBody).length > 1 →
      (subtokenizeTokens box_tokenize "box tokens" [("unknown", exBody)])[0]?
        = some ("unknown", exBody) ∧
      ((figure_tokenize exBody).length > 1 →
        lookupSubs (subtokenizeSubs figure_tokenize 0
          (subtokenizeTokens box_tokenize "box tokens" [("unknown", exBody)])) 0
          = figure_tokenize exBody))) :=
  ⟨by decide,
   subtokenize_rescans_only_unclaimed box_tokenize figure_tokenize
     [("unknown", exBody)] 0 exBody (by decide)⟩

theorem intercalate_cons_flatMap (sep p0 : Str) (parts : List Str) :
    List.intercalate sep (p0 :: parts)
      = p0 ++ parts.flatMap (fun p => sep ++ p) := by
  induction parts generalizing p0 with
  | nil => simp [List.intercalate]
  | cons q qs ih =>
    rw [List.intercalate, List.intersperse_cons_cons, List.flatten_cons,
      List.flatten_cons,
      show (List.intersperse sep (q :: qs)).flatten
        = List.intercalate sep (q :: qs) from rfl,
      ih q, List.flatMap_cons]
    simp [List.append_assoc]

theorem foldl_parseStep (md colP boxP figP tabP noteP : Str → Str)
    (l : List Token) (init : Str)
    (h : ∀ t ∈ l, t.1 = "unknown" ∨ t.1 = "columns" ∨ t.1 = "box" ∨
      t.1 = "figure" ∨ t.1 = "table" ∨ t.1 = "note") :
    l.foldl (parseStep md colP boxP figP tabP noteP) init
      = init ++ l.flatMap
          (fun t => '\n' :: parseDispatch md colP boxP figP tabP noteP t) := by
  induction l generalizing init with
  | nil => simp
  | cons t ts ih =>
    have hstep : parseStep md colP boxP figP tabP noteP init t
        = init ++ '\n' :: parseDispatch md colP boxP figP tabP noteP t := by
      rcases h t (by simp) with hk | hk | hk | hk | hk | hk <;>
        simp [parseStep, parseDispatch, hk]
    rw [List.foldl_cons, hstep, ih _ (fun x hx => h x (by simp [hx])),
      List.flatMap_cons, List.append_assoc]

/-- C6.  Parse pipeline dispatch: `raw_body_parse` first tokenizes the raw
body via `raw_body_tokenize`, then, in token list order, dispatches each
token to the parser matching its kind (`unknown` to the external markdown
converter, the five environment kinds to their parsers) and concatenates the
parsed results separated by a newline (each parsed fragment is preceded by
one newline, i.e. the result is the newline-intercalation of the empty
string followed by the parsed fragments). -/
theorem raw_body_parse_dispatch (ctok btok ftok ttok ntok : Str → List Token)
    (md colP boxP figP tabP noteP : Str → Str) (s : Str)
    (h : ∀ t ∈ raw_body_tokenize ctok btok ftok ttok ntok s,
      t.1 = "unknown" ∨ t.1 = "columns" ∨ t.1 = "box" ∨
      t.1 = "figure" ∨ t.1 = "table" ∨ t.1 = "note") :
    raw_body_parse ctok btok ftok ttok ntok md colP boxP figP tabP noteP s
      = List.intercalate ['\n']
          ([] :: (raw_body_tokenize ctok btok ftok ttok ntok s).map
            (parseDispatch md colP boxP figP tabP noteP)) := by
  rw [raw_body_parse, foldl_parseStep md colP boxP figP tabP noteP _ [] h,
    List.nil_append, intercalate_cons_flatMap, List.flatMap_map,
    List.nil_append]
  rfl

/-- Witness for C6: the dispatch equation evaluated with the spec-modelled
tokenizers and identity parsers on `exBody`. -/
theorem raw_body_parse_dispatch_witness :
    (∀ t ∈ raw_body_tokenize columns_tokenize box_tokenize figure_tokenize
        table_tokenize note_tokenize exBody,
      t.1 = "unknown" ∨ t.1 = "columns" ∨ t.1 = "box" ∨
      t.1 = "figure" ∨ t.1 = "table" ∨ t.1 = "note") ∧
    raw_body_parse columns_tokenize box_tokenize figure_tokenize
        table_tokenize note_tokenize id id id id id id exBody
      = List.intercalate ['\n']
          ([] :: (raw_body_tokenize columns_tokenize box_tokenize
            figure_tokenize table_tokenize note_tokenize exBody).map
            (parseDispatch id id id id id id)) :=
  ⟨by decide,
   raw_body_parse_dispatch columns_tokenize box_tokenize figure_tokenize
     table_tokenize note_tokenize id id id id id id exBody (by decide)⟩

/-- C7.  Slide CSS scoping: with no override theme (`overtheme is None`)
`Slide.get_css` returns the empty string (and likewise for an empty rule
list); with an override theme whose slide CSS is the content element's rule,
the result is that rule re-prefixed with the id selector `#slide-<N>` by
rewriting the rule's leading character (its leading newline), with the
declaration block `rawdata_get_css c.data only_custom` kept verbatim — same
order, same values as the unscoped CSS. -/
theorem slide_get_css_scoping (n : Nat) (c : Content) (oc : Bool) :
    Slide.get_css none n = [] ∧
    Slide.get_css (some []) n = [] ∧
    Slide.get_css (some [Content.get_css c oc]) n
      = "\n#slide-".toList ++ (toString n).toList ++ [' ']
        ++ (".slide-content \x7b\n  float: left;".toList
          ++ rawdata_get_css c.data oc ++ "\n\x7d\n".toList) := by
  have hdrop : (Content.get_css c oc).drop 1
      = ".slide-content \x7b\n  float: left;".toList
        ++ rawdata_get_css c.data oc ++ "\n\x7d\n".toList := rfl
  refine ⟨rfl, rfl, ?_⟩
  show ("\n#slide-".toList ++ (toString n).toList ++ [' ']
      ++ (Content.get_css c oc).drop 1) ++ [] = _
  rw [hdrop]
  simp [List.append_assoc]

/-- C8.  Rendered slide shape is selected by the title: `to_html` emits one
div whose first two attributes are the id `slide-<N>` and the slide title;
a non-`$overview` slide gets class `step slide` with the seven positioning
attributes taken from the updated running position and wraps the header,
left sidebar, content, right sidebar and footer fragments in that fixed
order; the `$overview` slide gets class `step overview` with data-x, data-y
and data-z all `'0'`, only `data-scale` from the position, and no child
fragments. -/
theorem slide_to_html_shape (sp : SlideTheme → SlideTheme → Position → Position)
    (ctok btok ftok ttok ntok : Str → List Token)
    (md colP boxP figP tabP noteP : Str → Str)
    (s : Slide) (position : Position) (theme : SlideTheme) :
    s.put_attributes.take 2
      = [("id", "slide-" ++ toString s.number), ("title", s.title)] ∧
    (s.title ≠ "$overview" →
      Slide.to_html sp ctok btok ftok ttok ntok md colP boxP figP tabP noteP
          s position theme
        = (sp theme (s.overtheme.getD theme) position,
           { attrs := s.put_attributes ++
               [("class", "step slide"),
                ("data-x", toString
                  (sp theme (s.overtheme.getD theme) position).position.1),
                ("data-y", toString
                  (sp theme (s.overtheme.getD theme) position).position.2.1),
                ("data-z", toString
                  (sp theme (s.overtheme.getD theme) position).position.2.2),
                ("data-scale", toString
                  (sp theme (s.overtheme.getD theme) position).scale),
                ("data-rotate-x", toString
                  (sp theme (s.overtheme.getD theme) position).rotation.1),
                ("data-rotate-y", toString
                  (sp theme (s.overtheme.getD theme) position).rotation.2.1),
                ("data-rotate-z", toString
                  (sp theme (s.overtheme.getD theme) position).rotation.2.2)],
             children :=
               (s.overtheme.getD theme).headers.map (fun h => h.render s.data)
                 ++ ((s.overtheme.getD theme).sidebars.filter
                      (fun sb => sb.position == "L")).map
                      (fun sb => sb.render s.data)
                 ++ [(s.overtheme.getD theme).contentRender
                      ('\n' :: raw_body_parse ctok btok ftok ttok ntok md
                        colP boxP figP tabP noteP s.raw_body)]
                 ++ ((s.overtheme.getD theme).sidebars.filter
                      (fun sb => sb.position == "R")).map
                      (fun sb => sb.render s.data)
                 ++ (s.overtheme.getD theme).footers.map
                      (fun f => f.render s.data) })) ∧
    (s.title = "$overview" →
      Slide.to_html sp ctok btok ftok ttok ntok md colP boxP figP tabP noteP
          s position theme
        = (sp theme (s.overtheme.getD theme) position,
           { attrs := s.put_attributes ++
               [("class", "step overview"), ("style", ""),
                ("data-x", "0"), ("data-y", "0"), ("data-z", "0"),
                ("data-scale", toString
                  (sp theme (s.overtheme.getD theme) position).scale)],
             children := [] })) := by
  refine ⟨rfl, ?_, ?_⟩
  · intro hne
    cases ho : s.overtheme with
    | none => simp [Slide.to_html, hne, ho]
    | some t => simp [Slide.to_html, hne, ho]
  · intro hovr
    cases ho : s.overtheme with
    | none => simp [Slide.to_html, hovr, ho]
    | some t => simp [Slide.to_html, hovr, ho]

/-- Witness for C8: the non-overview branch evaluated on a concrete slide,
theme and position. -/
theorem slide_to_html_shape_witness :
    Slide.to_html exSetPos columns_tokenize box_tokenize figure_tokenize
        table_tokenize note_tokenize id id id id id id
        exSlide exPosition exTheme
      = (exSetPos exTheme (exSlide.overtheme.getD exTheme) exPosition,
         { attrs := exSlide.put_attributes ++
             [("class", "step slide"),
              ("data-x", toString (exSetPos exTheme
                (exSlide.overtheme.getD exTheme) exPosition).position.1),
              ("data-y", toString (exSetPos exTheme
                (exSlide.overtheme.getD exTheme) exPosition).position.2.1),
              ("data-z", toString (exSetPos exTheme
                (exSlide.overtheme.getD exTheme) exPosition).position.2.2),
              ("data-scale", toString (exSetPos exTheme
                (exSlide.overtheme.getD exTheme) exPosition).scale),
              ("data-rotate-x", toString (exSetPos exTheme
                (exSlide.overtheme.getD exTheme) exPosition).rotation.1),
              ("data-rotate-y", toString (exSetPos exTheme
                (exSlide.overtheme.getD exTheme) exPosition).rotation.2.1),
              ("data-rotate-z", toString (exSetPos exTheme
                (exSlide.overtheme.getD exTheme) exPosition).rotation.2.2)],
           children :=
             (exSlide.overtheme.getD exTheme).headers.map
                 (fun h => h.render exSlide.data)
               ++ ((exSlide.overtheme.getD exTheme).sidebars.filter
                    (fun sb => sb.position == "L")).map
                    (fun sb => sb.render exSlide.data)
               ++ [(exSlide.overtheme.getD exTheme).contentRender
                    ('\n' :: raw_body_parse columns_tokenize box_tokenize
                      figure_tokenize table_tokenize note_tokenize id id id
                      id id id exSlide.raw_body)]
               ++ ((exSlide.overtheme.getD exTheme).sidebars.filter
                    (fun sb => sb.position == "R")).map
                    (fun sb => sb.render exSlide.data)
               ++ (exSlide.overtheme.getD exTheme).footers.map
                    (fun f => f.render exSlide.data) }) :=
  (slide_to_html_shape exSetPos columns_tokenize box_tokenize figure_tokenize
    table_tokenize note_tokenize id id id id id id
    exSlide exPosition exTheme).2.1 (by decide)

theorem drop_length_sub_one {α : Type} (l : List α) (h : l ≠ []) :
    l.drop (l.length - 1) = [l.getLast h] := by
  have h2 := List.dropLast_append_getLast h
  have h3 : l.drop (l.length - 1)
      = (l.dropLast ++ [l.getLast h]).drop (l.length - 1) := by rw [h2]
  rw [h3, show l.length - 1 = l.dropLast.length from
    (List.length_dropLast l).symm, List.drop_left]

/-- C9.  Unterminated titlepage: when the begin marker matches at character
positions `(ms, me)` and no end marker follows, `Titlepage.get` reports
`found = true`, takes as raw body the text strictly between the end of the
begin match and the last character (the source's final character excluded),
and returns the source with that span removed but its final character
retained. -/
theorem titlepage_get_unterminated (source : Str) (ms me : Nat)
    (hms : ms ≤ me) (hme : me ≤ source.length) (hs : source ≠ []) :
    Titlepage.get source (some (ms, me)) none
      = (true, (source.drop me).dropLast,
         source.take ms ++ [source.getLast hs]) := by
  have hlen : 1 ≤ source.length :=
    Nat.succ_le_of_lt (List.length_pos.mpr hs)
  have hb1 : pyBound source.length (-1) = source.length - 1 := by
    unfold pyBound
    rw [if_pos (by omega)]
    omega
  have hbme : pyBound source.length (me : Int) = me := by
    unfold pyBound
    rw [if_neg (by omega)]
    simp
    omega
  have hbms : pyBound source.length (ms : Int) = ms := by
    unfold pyBound
    rw [if_neg (by omega)]
    simp
    omega
  have hb0 : pyBound source.length (0 : Int) = 0 := by
    unfold pyBound
    rw [if_neg (by omega)]
    simp
  have hblen : pyBound source.length (source.length : Int) = source.length := by
    unfold pyBound
    rw [if_neg (by omega)]
    simp
  have hraw : pySlice source (me : Int) (-1) = (source.drop me).dropLast := by
    rw [pySlice, hb1, hbme, List.drop_take, List.dropLast_eq_take,
      List.length_drop]
    congr 1
    omega
  have hlast : pySlice source (-1) (source.length : Int)
      = [source.getLast hs] := by
    rw [pySlice, hb1, hblen, List.take_length]
    exact drop_length_sub_one source hs
  have hpre : pySlice source 0 (ms : Int) = source.take ms := by
    rw [pySlice, hbms, hb0, List.drop_zero]
  show (true, pySlice source (me : Int) (-1),
    pySlice source 0 (ms : Int) ++ pySlice source (-1) (source.length : Int))
    = _
  rw [hraw, hlast, hpre]

/-- Witness for C9: a six-character source whose begin marker matches at
positions 1 to 3 with no end marker following. -/
theorem titlepage_get_unterminated_witness :
    Titlepage.get exTpSource (some (1, 3)) none
      = (true, (exTpSource.drop 3).dropLast,
         exTpSource.take 1 ++ [exTpSource.getLast (by decide)]) :=
  titlepage_get_unterminated exTpSource 1 3 (by decide) (by decide) (by decide)

theorem map_fst_setKey {β : Type} (d : List (String × β)) (k : String) (v : β)
    (h : (lookup d k).isSome) :
    (setKey d k v).map Prod.fst = d.map Prod.fst := by
  induction d with
  | nil => simp [lookup] at h
  | cons p ds ih =>
    by_cases hp : p.1 = k
    · simp [setKey, hp]
    · simp only [lookup, if_neg hp] at h
      simp [setKey, hp, ih h]

theorem metadata_step_keys (ev : String → PyVal)
    (data : List (String × PyVal)) (item : String × String) :
    (Metadata.get_value_step ev data item).map Prod.fst
      = data.map Prod.fst := by
  unfold Metadata.get_value_step
  cases hl : lookup data (pyStrip item.1) with
  | none => rfl
  | some pv =>
    have hsome : (lookup data (pyStrip item.1)).isSome := by simp [hl]
    cases pv <;> simp [map_fst_setKey _ _ _ hsome]

theorem metadata_get_values_keys (ev : String → PyVal)
    (data : List (String × PyVal)) (raw : List (String × String)) :
    (Metadata.get_values ev data raw).map Prod.fst = data.map Prod.fst := by
  induction raw generalizing data with
  | nil => rfl
  | cons it its ih =>
    rw [Metadata.get_values, List.foldl_cons,
      show List.foldl (Metadata.get_value_step ev)
        (Metadata.get_value_step ev data it) its
        = Metadata.get_values ev (Metadata.get_value_step ev data it) its
        from rfl,
      ih, metadata_step_keys]

/-- C10 (amended).  Metadata updates are restricted to known keys:
`get_values` and `set_value` never add, remove or reorder keys, a raw item
whose (stripped) key is absent leaves the dictionary unchanged (no error),
and an update touches no other key.  For a present key the branch is chosen
by the runtime type of the value currently stored at the key (which equals
the type of the default until a value of a different type is stored): a
stored string takes the stripped raw value verbatim, a stored list or
boolean takes `eval(raw value)`, and any other stored value (such as the
integer default of `max_time`) takes the stripped raw value verbatim. -/
theorem metadata_updates_by_runtime_type (ev : String → PyVal)
    (data : List (String × PyVal)) (key val : String)
    (raw : List (String × String)) (k : String) (v : PyVal) :
    ((Metadata.get_values ev data raw).map Prod.fst = data.map Prod.fst) ∧
    (lookup data (pyStrip key) = none →
      Metadata.get_value_step ev data (key, val) = data) ∧
    (∀ k', k' ≠ pyStrip key →
      lookup (Metadata.get_value_step ev data (key, val)) k'
        = lookup data k') ∧
    (∀ w, lookup data (pyStrip key) = some (PyVal.pstr w) →
      lookup (Metadata.get_value_step ev data (key, val)) (pyStrip key)
        = some (PyVal.pstr (pyStrip val))) ∧
    (∀ l, lookup data (pyStrip key) = some (PyVal.plist l) →
      lookup (Metadata.get_value_step ev data (key, val)) (pyStrip key)
        = some (ev (pyStrip val))) ∧
    (∀ b, lookup data (pyStrip key) = some (PyVal.pbool b) →
      lookup (Metadata.get_value_step ev data (key, val)) (pyStrip key)
        = some (ev (pyStrip val))) ∧
    (∀ n, lookup data (pyStrip key) = some (PyVal.pint n) →
      lookup (Metadata.get_value_step ev data (key, val)) (pyStrip key)
        = some (PyVal.pstr (pyStrip val))) ∧
    (lookup data k = none → Metadata.set_value data k v = data) ∧
    ((Metadata.set_value data k v).map Prod.fst = data.map Prod.fst) := by
  refine ⟨metadata_get_values_keys ev data raw, ?_, ?_, ?_, ?_, ?_, ?_, ?_, ?_⟩
  · intro h
    simp [Metadata.get_value_step, h]
  · intro k' hk'
    cases hl : lookup data (pyStrip key) with
    | none => simp [Metadata.get_value_step, hl]
    | some pv =>
      cases pv <;>
        simp [Metadata.get_value_step, hl,
          lookup_setKey_ne _ _ _ _ (fun hh => hk' hh.symm)]
  · intro w h
    simp [Metadata.get_value_step, h, lookup_setKey_self]
  · intro l h
    simp [Metadata.get_value_step, h, lookup_setKey_self]
  · intro b h
    simp [Metadata.get_value_step, h, lookup_setKey_self]
  · intro n h
    simp [Metadata.get_value_step, h, lookup_setKey_self]
  · intro h
    simp [Metadata.set_value, h]
  · by_cases h : (lookup data k).isSome
    · simp [Metadata.set_value, h, map_fst_setKey _ _ _ h]
    · simp [Metadata.set_value, h]

/-- C10 (counterexample).  The key `authors` has the list `[]` as default,
yet its second raw value in one `get_values` run is assigned verbatim as a
string rather than passed to `eval`: the first item's `eval` result is a
string, so the `isinstance` branch — which tests the currently stored value,
not the default — takes the string branch.  This contradicts the claim that
for a known key whose default is a list the raw value string is always
evaluated with `eval` before assignment. -/
theorem metadata_eval_branch_counterexample :
    Metadata.get_values exEval exMetaDefaults
        [("authors", "\"x\""), ("authors", "hello")]
      = [("title", PyVal.pstr ""), ("authors", PyVal.pstr "hello"),
         ("max_time", PyVal.pint 25)] ∧
    exEval "hello" ≠ PyVal.pstr "hello" := by
  decide

/-- Witness for C10 (amended): the string branch evaluated on the defaults
fragment. -/
theorem metadata_updates_by_runtime_type_witness :
    lookup exMetaDefaults (pyStrip "title") = some (PyVal.pstr "") ∧
    lookup (Metadata.get_value_step exEval exMetaDefaults ("title", " T "))
        (pyStrip "title") = some (PyVal.pstr (pyStrip " T ")) :=
  ⟨by decide,
   (metadata_updates_by_runtime_type exEval exMetaDefaults "title" " T " []
     "k" (PyVal.pstr "v")).2.2.2.1 "" (by decide)⟩

end MaTiSSe
